import Mathlib

/-!
Verification of the `market_types` combinator library (src/src/compose.rs,
src/src/convert.rs, src/src/collections.rs) against its specification.

The base framework types (`Fault`, `Failure`, `Recall`, the `blame` widening,
`EmptyStock`) come from the external `market` crate, which the spec treats as a
fixed collaborator; they are embedded here from the boundary contract the spec
gives for them (a fault is tagged `Insufficiency(I)` or `Defect(D)`; blame
converts each slot independently).  Diagnostic agent names carried by
`Failure`/`Recall` for `Display` purposes are dropped, as no claim concerns
them.  Stateful Rust objects (interior mutability via `RefCell`, consumed
`VecDeque` entries) become explicit state passing; the unbounded pull loop in
`Composer::consume` becomes fuel-indexed recursion where exhausted fuel
(`none`) represents a call that has not yet returned.
-/

/-- A fault, tagged as transient (`insufficiency`) or permanent (`defect`).
From the `market` framework boundary: `Fault` is `Insufficiency(I)` or
`Defect(D)` for a flaw descriptor `(I, D)`. -/
inductive Fault (I D : Type) where
  | insufficiency : I → Fault I D
  | defect : D → Fault I D
deriving DecidableEq, Repr

/-- The widening (blame) conversion on faults: each slot is converted
independently, so the `insufficiency`/`defect` tag itself never changes. -/
def Fault.blame {I D I2 D2 : Type} (fi : I → I2) (fd : D → D2) :
    Fault I D → Fault I2 D2
  | .insufficiency i => .insufficiency (fi i)
  | .defect d => .defect (fd d)

/-- Whether a fault is classified as a defect (`Failure::is_defect`). -/
def Fault.isDefect {I D : Type} : Fault I D → Bool
  | .insufficiency _ => false
  | .defect _ => true

/-- A producer-side failure: the fault together with the rejected good
(`market::Recall`, diagnostic name dropped). -/
structure Recall (I D G : Type) where
  fault : Fault I D
  good : G
deriving DecidableEq, Repr

/-- The `market::EmptyStock` insufficiency: a source is momentarily empty. -/
inductive EmptyStock where
  | mk
deriving DecidableEq, Repr

/-- The type `ComposeDefect<D, M>` from src/src/compose.rs: a defect of the inner
consumer (`consume`) or a misstep during composition (`compose`). -/
inductive ComposeDefect (D M : Type) where
  | consume : D → ComposeDefect D M
  | compose : M → ComposeDefect D M
deriving DecidableEq, Repr

/-- The `impl From<D> for ComposeDefect<D, M>` conversion (src/src/compose.rs
lines 45-49): an inner defect widens to `Consume`. -/
def ComposeDefect.fromDefect {D M : Type} (d : D) : ComposeDefect D M :=
  ComposeDefect.consume d

/-- Outcome of one invocation of a `Composite::compose` function.  In Rust the
function mutates the buffer through `&mut Vec<E>`; here `ready`/`misstep`
carry the buffer the function leaves behind after draining the recognized or
invalid prefix, while `pending` leaves the buffer unchanged per the trait
contract (src/src/compose.rs lines 14-24). -/
inductive CompOut (G M E : Type) where
  | ready : G → List E → CompOut G M E
  | pending : CompOut G M E
  | misstep : M → List E → CompOut G M E

/-- A consumer as state transformer: one `consume()` call returns either a
good or a fault, together with the successor state (interior mutability made
explicit; the state advances on failures too, as in the mock consumer). -/
def ConsumerFn (S E I D : Type) : Type :=
  S → Except (Fault I D) E × S

/-- The element-pulling loop of `Composer::consume` (src/src/compose.rs lines
106-115): repeatedly pull one element from the inner consumer, appending each
to the buffer, until the inner consumer fails; return the grown buffer, the
terminal failure, and the inner consumer's final state.  The Rust loop is
unbounded; `fuel` counts remaining iterations and `none` means the loop has
not exited within `fuel` pulls. -/
def pullAll {S E I D : Type} (c : ConsumerFn S E I D) :
    Nat → S → List E → Option (List E × Fault I D × S)
  | 0, _, _ => none
  | n + 1, s, buf =>
    match c s with
    | (.ok e, s2) => pullAll c n s2 (buf ++ [e])
    | (.error f, s2) => some (buf, f, s2)

namespace Composer

/-- State of a `Composer` instance: the element buffer (the `elements`
`RefCell`) and the inner consumer's state. -/
def State (E S : Type) : Type := List E × S

/-- Embeds `Composer::consume` (src/src/compose.rs lines 101-125): pull elements into
the buffer until the inner consumer fails, then invoke the composite function
once.  `Misstep` returns a defect wrapping the misstep; `Ready` returns the
composite, discarding the terminal failure; `Pending` returns the terminal
failure widened by blame (insufficiency unchanged, defect wrapped as
`ComposeDefect.consume` via the `From<D>` impl). -/
def consume {S E I D G M : Type} (c : ConsumerFn S E I D)
    (comp : List E → CompOut G M E) (fuel : Nat) (st : State E S) :
    Option (Except (Fault I (ComposeDefect D M)) G × State E S) :=
  match pullAll c fuel st.2 st.1 with
  | none => none
  | some (buf, f, s2) =>
    match comp buf with
    | .misstep m buf2 =>
        some (.error (Fault.defect (ComposeDefect.compose m)), (buf2, s2))
    | .ready g buf2 => some (.ok g, (buf2, s2))
    | .pending =>
        some (.error (f.blame id ComposeDefect.fromDefect), (buf, s2))

end Composer

/-- The misstep type of the mock composite (src/tests/compose.rs). -/
inductive MockMisstep where
  | mk
deriving DecidableEq, Repr

/-- The defect type of the mock consumer (src/tests/compose.rs). -/
inductive MockDefect where
  | mk
deriving DecidableEq, Repr

/-- The mock composite good (src/tests/compose.rs). -/
inductive MockComposite where
  | mk
deriving DecidableEq, Repr

/-- The mock consumer of src/tests/compose.rs: its state is the queue of
scripted outcomes; `consume` pops the front entry (removing it even when it is
an error) and returns an `EmptyStock` insufficiency once the queue is empty. -/
def MockConsumer.consume :
    ConsumerFn (List (Except (Fault EmptyStock MockDefect) Nat)) Nat
      EmptyStock MockDefect
  | [] => (.error (Fault.insufficiency EmptyStock.mk), [])
  | e :: rest => (e, rest)

/-- Embeds `MockComposite::compose` from src/tests/compose.rs lines 58-92: recognizes
exactly the prefix `[0, 1, 2]` as `Ready` (draining it), reports `Pending`
while the buffer is a proper prefix of `[0, 1, 2]`, and on any mismatching
element drains the examined prefix and throws a misstep. -/
def MockComposite.compose : List Nat → CompOut MockComposite MockMisstep Nat
  | [] => .pending
  | e0 :: rest0 =>
    if e0 = 0 then
      match rest0 with
      | [] => .pending
      | e1 :: rest1 =>
        if e1 = 1 then
          match rest1 with
          | [] => .pending
          | e2 :: rest2 =>
            if e2 = 2 then .ready MockComposite.mk rest2
            else .misstep MockMisstep.mk rest2
        else .misstep MockMisstep.mk rest1
    else .misstep MockMisstep.mk rest0

/-- The type `SpecificationDefect<D>` from src/src/convert.rs: the good could not be
specified, or the specified good could not be produced. -/
inductive SpecificationDefect (D : Type) where
  | unspecifiable : SpecificationDefect D
  | improducible : D → SpecificationDefect D
deriving DecidableEq, Repr

namespace Specifier

/-- Embeds `Specifier::produce` (src/src/convert.rs lines 88-100): try to convert the
generic good into the inner producer's native good.  On conversion failure
(`TryFrom<G, Error = G>` hands back the good), return a recall with defect
`Unspecifiable` carrying that good, without touching the inner producer.  On
success, delegate and widen any inner recall by blame: fault slots via
`fi`/`fd`, the contained good back to `G` via `fromPG` (`G: From<P::Good>`). -/
def produce {G PG I D I2 D2 : Type} (tryFrom : G → Except G PG)
    (fromPG : PG → G) (fi : I → I2) (fd : D → SpecificationDefect D2)
    (inner : PG → Except (Recall I D PG) Unit) (good : G) :
    Except (Recall I2 (SpecificationDefect D2) G) Unit :=
  match tryFrom good with
  | .ok convertedGood =>
    match inner convertedGood with
    | .ok _ => .ok ()
    | .error r => .error ⟨r.fault.blame fi fd, fromPG r.good⟩
  | .error originalGood =>
    .error ⟨Fault.defect SpecificationDefect.unspecifiable, originalGood⟩

end Specifier

namespace Collector

/-- The scan loop of `Collector::consume` (src/src/collections.rs lines
177-187), instrumented with the number of sub-consumers invoked so far.  Each
iteration overwrites the tentative outcome with the current sub-consumer's
blamed result; the loop breaks on success or on a defect and otherwise keeps
scanning.  A sub-consumer is represented by the outcome its single `consume()`
invocation would yield. -/
def scanGo {G I D D2 : Type} (fi : I → EmptyStock) (fd : D → D2) :
    List (Except (Fault I D) G) → Except (Fault EmptyStock D2) G → Nat →
      Except (Fault EmptyStock D2) G × Nat
  | [], result, n => (result, n)
  | r :: rest, _, n =>
    match r with
    | .ok g => (.ok g, n + 1)
    | .error f =>
      let blamed := f.blame fi fd
      if blamed.isDefect then (.error blamed, n + 1)
      else scanGo fi fd rest (.error blamed) (n + 1)

/-- Embeds `Collector::consume` (src/src/collections.rs lines 172-190) with the
invocation count: the tentative outcome starts as the default `EmptyStock`
insufficiency, then the sub-consumers are scanned in registration order. -/
def consumeScan {G I D D2 : Type} (fi : I → EmptyStock) (fd : D → D2)
    (results : List (Except (Fault I D) G)) :
    Except (Fault EmptyStock D2) G × Nat :=
  scanGo fi fd results (.error (Fault.insufficiency EmptyStock.mk)) 0

/-- The result of `Collector::consume` alone. -/
def consume {G I D D2 : Type} (fi : I → EmptyStock) (fd : D → D2)
    (results : List (Except (Fault I D) G)) :
    Except (Fault EmptyStock D2) G :=
  (consumeScan fi fd results).1

end Collector

/-- The type `DistributionDefect<F>` from src/src/collections.rs lines 34-48: the inner
specifier failed, or the good's key had no registered producer; the `From`
impl widens a specification defect to `Specification`. -/
inductive DistributionDefect (D : Type) where
  | specification : SpecificationDefect D → DistributionDefect D
  | missingKey : DistributionDefect D
deriving DecidableEq, Repr

namespace Distributor

/-- Embeds `HashMap::get`: lookup of the producer registered for a key. -/
def lookup {K P : Type} [DecidableEq K] (k : K) :
    List (K × P) → Option P
  | [] => none
  | (k2, p) :: rest => if k = k2 then some p else lookup k rest

/-- Embeds `Distributor::produce` (src/src/collections.rs lines 120-128), instrumented
with whether a sub-producer was invoked.  The good's key is looked up; a
registered producer is delegated to, its recall widened by blame (insufficiency
unchanged, defect via the `From<SpecificationDefect<F>>` impl, the good kept);
a missing key throws a recall with defect `MissingKey` carrying the good. -/
def produceTrace {K G I D : Type} [DecidableEq K] (key : G → K)
    (producers : List (K × (G → Except (Recall I (SpecificationDefect D) G) Unit)))
    (good : G) :
    Except (Recall I (DistributionDefect D) G) Unit × Bool :=
  match lookup (key good) producers with
  | some p =>
    match p good with
    | .ok _ => (.ok (), true)
    | .error r =>
      (.error ⟨r.fault.blame id DistributionDefect.specification, r.good⟩, true)
  | none => (.error ⟨Fault.defect DistributionDefect.missingKey, good⟩, false)

/-- The result of `Distributor::produce` alone. -/
def produce {K G I D : Type} [DecidableEq K] (key : G → K)
    (producers : List (K × (G → Except (Recall I (SpecificationDefect D) G) Unit)))
    (good : G) :
    Except (Recall I (DistributionDefect D) G) Unit :=
  (produceTrace key producers good).1

end Distributor

section ComposerTheorems

/-- C1: when the composite function reports `Pending`, `Composer::consume`
returns the recorded terminal failure of the inner consumer widened into the
composer's flaw domain, and the widening keeps the classification: a terminal
insufficiency stays an insufficiency and a terminal defect becomes a defect
wrapped as `ComposeDefect.consume`. -/
theorem composer_pending_widens_terminal_failure {S E I D G M : Type}
    (c : ConsumerFn S E I D) (comp : List E → CompOut G M E) (fuel : Nat)
    (st : Composer.State E S) (buf : List E) (f : Fault I D) (s2 : S)
    (hpull : pullAll c fuel st.2 st.1 = some (buf, f, s2))
    (hpend : comp buf = CompOut.pending) :
    Composer.consume c comp fuel st =
      some (Except.error (f.blame id ComposeDefect.fromDefect), (buf, s2)) ∧
    (∀ i, f = Fault.insufficiency i →
      f.blame id (ComposeDefect.fromDefect : D → ComposeDefect D M) =
        Fault.insufficiency i) ∧
    (∀ d, f = Fault.defect d →
      f.blame id (ComposeDefect.fromDefect : D → ComposeDefect D M) =
        Fault.defect (ComposeDefect.consume d)) := by
  refine ⟨?_, ?_, ?_⟩
  · simp only [Composer.consume, hpull, hpend]
  · rintro i rfl; rfl
  · rintro d rfl; rfl

/-- Witness for C1 at a concrete input: a source that immediately reports
`EmptyStock` leaves the buffer empty, the mock composite reports `Pending`,
and the call returns the widened insufficiency. -/
theorem composer_pending_widens_terminal_failure_witness :
    Composer.consume MockConsumer.consume MockComposite.compose 5
        ([], [Except.error (Fault.insufficiency EmptyStock.mk)]) =
      some (Except.error
        ((Fault.insufficiency EmptyStock.mk :
            Fault EmptyStock MockDefect).blame id ComposeDefect.fromDefect),
        ([], [])) :=
  (composer_pending_widens_terminal_failure MockConsumer.consume
    MockComposite.compose 5
    ([], [Except.error (Fault.insufficiency EmptyStock.mk)])
    [] (Fault.insufficiency EmptyStock.mk) [] rfl rfl).1

/-- C3: when the composite function reports a misstep, `Composer::consume`
returns a defect wrapping the misstep (`ComposeDefect.compose`), for every
possible recorded terminal failure `f` of the inner consumer — insufficiency
or defect alike. -/
theorem composer_misstep_overrides_terminal_failure {S E I D G M : Type}
    (c : ConsumerFn S E I D) (comp : List E → CompOut G M E) (fuel : Nat)
    (st : Composer.State E S) (buf buf2 : List E) (f : Fault I D) (s2 : S)
    (m : M)
    (hpull : pullAll c fuel st.2 st.1 = some (buf, f, s2))
    (hmis : comp buf = CompOut.misstep m buf2) :
    Composer.consume c comp fuel st =
      some (Except.error (Fault.defect (ComposeDefect.compose m)),
        (buf2, s2)) := by
  simp only [Composer.consume, hpull, hmis]

/-- Witness for C3 at a concrete input: the source yields `9` and then a
terminal defect; the mock composite diagnoses the prefix `[9]` as invalid, and
the call returns the misstep-wrapping defect, not the inner defect. -/
theorem composer_misstep_overrides_terminal_failure_witness :
    Composer.consume MockConsumer.consume MockComposite.compose 5
        ([], [Except.ok 9, Except.error (Fault.defect MockDefect.mk)]) =
      some (Except.error (Fault.defect (ComposeDefect.compose MockMisstep.mk)),
        ([], [])) :=
  composer_misstep_overrides_terminal_failure MockConsumer.consume
    MockComposite.compose 5
    ([], [Except.ok 9, Except.error (Fault.defect MockDefect.mk)])
    [9] [] (Fault.defect MockDefect.mk) [] MockMisstep.mk rfl rfl

/-- C9: when the composite function reports `Ready`, `Composer::consume`
returns the composite as success and the recorded terminal failure — even a
defect `d` — appears nowhere in the result or successor state; concretely,
after a call whose terminal failure was a defect succeeded with `Ready`, the
next call starts afresh and reports the source's `EmptyStock`, not the
dropped defect. -/
theorem composer_ready_discards_terminal_defect {S E I D G M : Type}
    (c : ConsumerFn S E I D) (comp : List E → CompOut G M E) (fuel : Nat)
    (st : Composer.State E S) (buf buf2 : List E) (d : D) (s2 : S) (g : G)
    (hpull : pullAll c fuel st.2 st.1 = some (buf, Fault.defect d, s2))
    (hready : comp buf = CompOut.ready g buf2) :
    Composer.consume c comp fuel st = some (Except.ok g, (buf2, s2)) ∧
    (Composer.consume MockConsumer.consume MockComposite.compose 10
        ([], [Except.ok 0, Except.ok 1, Except.ok 2,
          Except.error (Fault.defect MockDefect.mk)]) =
      some (Except.ok MockComposite.mk, ([], [])) ∧
     Composer.consume MockConsumer.consume MockComposite.compose 10
        ([], []) =
      some (Except.error
        (Fault.insufficiency EmptyStock.mk :
          Fault EmptyStock (ComposeDefect MockDefect MockMisstep)),
        ([], []))) := by
  refine ⟨?_, rfl, rfl⟩
  simp only [Composer.consume, hpull, hready]

/-- Witness for C9 at a concrete input: the source yields `0,1,2` and then a
terminal defect; composition is `Ready` and the defect is dropped. -/
theorem composer_ready_discards_terminal_defect_witness :
    Composer.consume MockConsumer.consume MockComposite.compose 10
        ([], [Except.ok 0, Except.ok 1, Except.ok 2,
          Except.error (Fault.defect MockDefect.mk)]) =
      some (Except.ok MockComposite.mk, ([], [])) :=
  (composer_ready_discards_terminal_defect MockConsumer.consume
    MockComposite.compose 10
    ([], [Except.ok 0, Except.ok 1, Except.ok 2,
      Except.error (Fault.defect MockDefect.mk)])
    [0, 1, 2] [] MockDefect.mk [] MockComposite.mk rfl rfl).1

/-- The pull loop only appends: whatever buffer it starts from is a prefix of
the buffer it hands to the composite function. -/
theorem pullAll_extends_buffer {S E I D : Type} (c : ConsumerFn S E I D) :
    ∀ (n : Nat) (s : S) (buf buf2 : List E) (f : Fault I D) (s2 : S),
      pullAll c n s buf = some (buf2, f, s2) →
        ∃ pulled, buf2 = buf ++ pulled := by
  intro n
  induction n with
  | zero =>
    intro s buf buf2 f s2 h
    simp [pullAll] at h
  | succ n ih =>
    intro s buf buf2 f s2 h
    unfold pullAll at h
    rcases hc : c s with ⟨r, s3⟩
    rw [hc] at h
    cases r with
    | ok e =>
      simp only at h
      obtain ⟨pulled, hp⟩ := ih s3 (buf ++ [e]) buf2 f s2 h
      exact ⟨e :: pulled, by simp [hp]⟩
    | error fe =>
      simp only [Option.some.injEq, Prod.mk.injEq] at h
      exact ⟨[], by simp [h.1.symm]⟩

/-- C8: every element pulled from the inner consumer during a call is appended
to the buffer (in order) before composition, and the buffer persists across
calls: on the concrete scenario of a source yielding `0,1`, then `EmptyStock`,
then later `2`, the first call returns the insufficiency leaving the buffer at
`[0,1]`, and the second call completes the composite from the retained
buffer. -/
theorem composer_buffer_grows_and_persists {S E I D G M : Type}
    (c : ConsumerFn S E I D) (_comp : List E → CompOut G M E) (fuel : Nat)
    (st : Composer.State E S) (buf : List E) (f : Fault I D) (s2 : S)
    (hpull : pullAll c fuel st.2 st.1 = some (buf, f, s2)) :
    (∃ pulled, buf = st.1 ++ pulled) ∧
    (Composer.consume MockConsumer.consume MockComposite.compose 10
        ([], [Except.ok 0, Except.ok 1,
          Except.error (Fault.insufficiency EmptyStock.mk), Except.ok 2]) =
      some (Except.error
        (Fault.insufficiency EmptyStock.mk :
          Fault EmptyStock (ComposeDefect MockDefect MockMisstep)),
        ([0, 1], [Except.ok 2])) ∧
     Composer.consume MockConsumer.consume MockComposite.compose 10
        ([0, 1], [Except.ok 2]) =
      some (Except.ok MockComposite.mk, ([], []))) :=
  ⟨pullAll_extends_buffer c fuel st.2 st.1 buf f s2 hpull, rfl, rfl⟩

/-- Witness for C8 at a concrete input: the first call of the scenario pulls
`0` and `1`, growing the initially empty buffer to `[0, 1]`. -/
theorem composer_buffer_grows_and_persists_witness :
    ∃ pulled, [0, 1] = ([] : List Nat) ++ pulled :=
  (composer_buffer_grows_and_persists MockConsumer.consume
    MockComposite.compose 10
    ([], [Except.ok 0, Except.ok 1,
      Except.error (Fault.insufficiency EmptyStock.mk), Except.ok 2])
    [0, 1] (Fault.insufficiency EmptyStock.mk) [Except.ok 2] rfl).1

/-- Iterating the inner consumer's state transition. -/
def iterState {S E I D : Type} (c : ConsumerFn S E I D) : Nat → S → S
  | 0, s => s
  | n + 1, s => iterState c n (c s).2

/-- If the pull loop exits, it exits because the inner consumer failed: the
reported terminal failure was returned by a `consume()` call of the inner
consumer from some state. -/
theorem pullAll_exits_on_failure {S E I D : Type} (c : ConsumerFn S E I D) :
    ∀ (n : Nat) (s : S) (buf buf2 : List E) (f : Fault I D) (s2 : S),
      pullAll c n s buf = some (buf2, f, s2) →
        ∃ s0, c s0 = (Except.error f, s2) := by
  intro n
  induction n with
  | zero =>
    intro s buf buf2 f s2 h
    simp [pullAll] at h
  | succ n ih =>
    intro s buf buf2 f s2 h
    unfold pullAll at h
    rcases hc : c s with ⟨r, s3⟩
    rw [hc] at h
    cases r with
    | ok e => exact ih s3 (buf ++ [e]) buf2 f s2 h
    | error fe =>
      simp only [Option.some.injEq, Prod.mk.injEq] at h
      exact ⟨s, by rw [hc, h.2.1, h.2.2]⟩

/-- Against an inner consumer that always succeeds, the pull loop never exits
within any amount of fuel. -/
theorem pullAll_none_of_never_fails {S E I D : Type} (c : ConsumerFn S E I D)
    (h : ∀ s, ∃ e s2, c s = (Except.ok e, s2)) :
    ∀ (n : Nat) (s : S) (buf : List E), pullAll c n s buf = none := by
  intro n
  induction n with
  | zero => intro s buf; rfl
  | succ n ih =>
    intro s buf
    obtain ⟨e, s2, hc⟩ := h s
    unfold pullAll
    rw [hc]
    exact ih s2 (buf ++ [e])

/-- If the inner consumer, run from state `s`, succeeds for `k` consecutive
calls and fails on call `k + 1`, the pull loop exits once given more than `k`
fuel. -/
theorem pullAll_some_of_eventually_fails {S E I D : Type}
    (c : ConsumerFn S E I D) :
    ∀ (k : Nat) (s : S) (buf : List E),
      (∀ j, j < k → ∃ e, (c (iterState c j s)).1 = Except.ok e) →
      (∃ f, (c (iterState c k s)).1 = Except.error f) →
      ∀ fuel, k < fuel → ∃ out, pullAll c fuel s buf = some out := by
  intro k
  induction k with
  | zero =>
    intro s buf _ hf fuel hfuel
    obtain ⟨f, hf⟩ := hf
    obtain ⟨n, rfl⟩ := Nat.exists_eq_add_of_lt hfuel
    simp only [iterState] at hf
    rcases hc : c s with ⟨r, s3⟩
    rw [hc] at hf
    simp only at hf
    subst hf
    exact ⟨(buf, f, s3), by simp only [Nat.zero_add, pullAll, hc]⟩
  | succ k ih =>
    intro s buf hok hf fuel hfuel
    obtain ⟨e, he⟩ := hok 0 (Nat.succ_pos k)
    simp only [iterState] at he
    rcases hc : c s with ⟨r, s3⟩
    rw [hc] at he
    simp only at he
    subst he
    obtain ⟨n, rfl⟩ := Nat.exists_eq_add_of_lt hfuel
    have hstep : ∀ j, iterState c (j + 1) s = iterState c j s3 := by
      intro j
      rw [show iterState c (j + 1) s = iterState c j (c s).2 from rfl, hc]
    have hok2 : ∀ j, j < k → ∃ e, (c (iterState c j s3)).1 = Except.ok e := by
      intro j hj
      rw [← hstep j]
      exact hok (j + 1) (Nat.succ_lt_succ hj)
    have hf2 : ∃ f, (c (iterState c k s3)).1 = Except.error f := by
      rw [← hstep k]
      exact hf
    obtain ⟨out, hout⟩ :=
      ih s3 (buf ++ [e]) hok2 hf2 (k + 1 + n) (by omega)
    refine ⟨out, ?_⟩
    show pullAll c (k + 1 + n + 1) s buf = some out
    unfold pullAll
    rw [hc]
    exact hout

/-- C10: the element-pulling loop of `Composer::consume` exits only when the
inner consumer's `consume` returns a failure (every reported terminal failure
was produced by an inner `consume()` call); the call returns once given enough
fuel exactly when the inner consumer, run from the current state, fails after
finitely many consecutive successes; and against an inner consumer that never
fails, `consume` never returns (it is `none` for every amount of fuel). -/
theorem composer_consume_terminates_iff_inner_fails {S E I D G M : Type}
    (c : ConsumerFn S E I D) (comp : List E → CompOut G M E) :
    (∀ (n : Nat) (s : S) (buf buf2 : List E) (f : Fault I D) (s2 : S),
      pullAll c n s buf = some (buf2, f, s2) →
        ∃ s0, c s0 = (Except.error f, s2)) ∧
    (∀ (k : Nat) (st : Composer.State E S),
      (∀ j, j < k → ∃ e, (c (iterState c j st.2)).1 = Except.ok e) →
      (∃ f, (c (iterState c k st.2)).1 = Except.error f) →
      ∀ fuel, k < fuel →
        ∃ out, Composer.consume c comp fuel st = some out) ∧
    ((∀ s, ∃ e s2, c s = (Except.ok e, s2)) →
      ∀ (fuel : Nat) (st : Composer.State E S),
        Composer.consume c comp fuel st = none) := by
  refine ⟨pullAll_exits_on_failure c, ?_, ?_⟩
  · intro k st hok hf fuel hfuel
    obtain ⟨⟨buf2, f, s2⟩, hout⟩ :=
      pullAll_some_of_eventually_fails c k st.2 st.1 hok hf fuel hfuel
    cases h2 : comp buf2 with
    | ready g rem =>
      refine ⟨(Except.ok g, (rem, s2)), ?_⟩
      simp only [Composer.consume, hout, h2]
    | pending =>
      refine ⟨(Except.error (f.blame id ComposeDefect.fromDefect),
        (buf2, s2)), ?_⟩
      simp only [Composer.consume, hout, h2]
    | misstep m rem =>
      refine ⟨(Except.error (Fault.defect (ComposeDefect.compose m)),
        (rem, s2)), ?_⟩
      simp only [Composer.consume, hout, h2]
  · intro h fuel st
    unfold Composer.consume
    rw [pullAll_none_of_never_fails c h fuel st.2 st.1]

/-- Witness for C10 at a concrete input: against an inner consumer that always
succeeds (yielding `0` forever), `Composer::consume` has not returned after 7
pull iterations. -/
theorem composer_consume_terminates_iff_inner_fails_witness :
    Composer.consume
      (fun s : Unit =>
        ((Except.ok 0 : Except (Fault EmptyStock MockDefect) Nat), s))
      MockComposite.compose 7 ([], ()) = none :=
  (composer_consume_terminates_iff_inner_fails
    (fun s : Unit =>
      ((Except.ok 0 : Except (Fault EmptyStock MockDefect) Nat), s))
    MockComposite.compose).2.2
    (fun s => ⟨0, s, rfl⟩) 7 ([], ())

end ComposerTheorems

section SpecifierTheorems

/-- C2: if the conversion of `g` to the inner producer's native good type
fails (handing back `g`, as `TryFrom<G, Error = G>` does), `Specifier::produce`
returns, for every possible inner producer — i.e. without consulting it — a
recall whose fault is `Defect Unspecifiable` and whose contained good is
exactly the original `g`. -/
theorem specifier_unspecifiable_returns_original_good
    {G PG I D I2 D2 : Type} (tryFrom : G → Except G PG) (fromPG : PG → G)
    (fi : I → I2) (fd : D → SpecificationDefect D2) (g : G)
    (h : tryFrom g = Except.error g) :
    ∀ inner, Specifier.produce tryFrom fromPG fi fd inner g =
      Except.error ⟨Fault.defect SpecificationDefect.unspecifiable, g⟩ := by
  intro inner
  simp only [Specifier.produce, h]

/-- Witness for C2 at a concrete input: a conversion that always fails makes
`produce 7` return the `Unspecifiable` recall carrying `7`, with an inner
producer that would have accepted anything. -/
theorem specifier_unspecifiable_returns_original_good_witness :
    Specifier.produce (fun g : Nat => Except.error g) (fun pg : Nat => pg)
      (fun i : EmptyStock => i)
      (fun d : MockDefect => SpecificationDefect.improducible d)
      (fun _ => Except.ok ()) 7 =
    Except.error ⟨Fault.defect SpecificationDefect.unspecifiable, 7⟩ :=
  specifier_unspecifiable_returns_original_good
    (fun g : Nat => Except.error g) (fun pg : Nat => pg)
    (fun i : EmptyStock => i)
    (fun d : MockDefect => SpecificationDefect.improducible d)
    7 rfl (fun _ => Except.ok ())

end SpecifierTheorems

section CollectorTheorems

/-- Skipping a run of insufficiency-failing sub-consumers: the scan loop walks
past them, only updating the tentative outcome and the invocation count. -/
theorem scanGo_skips_insufficiencies {G I D D2 : Type}
    (fi : I → EmptyStock) (fd : D → D2) :
    ∀ (pre rest : List (Except (Fault I D) G)),
      (∀ r ∈ pre, ∃ i, r = Except.error (Fault.insufficiency i)) →
      ∀ (acc : Except (Fault EmptyStock D2) G) (n : Nat),
        ∃ acc2, Collector.scanGo fi fd (pre ++ rest) acc n =
          Collector.scanGo fi fd rest acc2 (n + pre.length) := by
  intro pre
  induction pre with
  | nil => intro rest _ acc n; exact ⟨acc, by simp⟩
  | cons r pre ih =>
    intro rest hpre acc n
    obtain ⟨i, hi⟩ := hpre r (by simp)
    subst hi
    obtain ⟨acc2, h2⟩ :=
      ih rest (fun r hr => hpre r (by simp [hr]))
        (Except.error (Fault.insufficiency (fi i))) (n + 1)
    refine ⟨acc2, ?_⟩
    simp only [List.cons_append, Collector.scanGo, Fault.blame, Fault.isDefect,
      Bool.false_eq_true, if_false, List.length_cons, List.append_eq]
    rw [h2, show n + 1 + pre.length = n + (pre.length + 1) from by omega]

/-- C4: `Collector::consume` scans sub-consumers in registration order and
stops at the first success after any run of insufficiency failures: it returns
that sub-consumer's good having invoked exactly the failing run plus the
succeeding sub-consumer, so no later sub-consumer is invoked that call. -/
theorem collector_stops_at_first_success {G I D D2 : Type}
    (fi : I → EmptyStock) (fd : D → D2)
    (pre rest : List (Except (Fault I D) G)) (g : G)
    (hpre : ∀ r ∈ pre, ∃ i, r = Except.error (Fault.insufficiency i)) :
    Collector.consumeScan fi fd (pre ++ Except.ok g :: rest) =
      (Except.ok g, pre.length + 1) := by
  obtain ⟨acc2, h2⟩ := scanGo_skips_insufficiencies fi fd pre
    (Except.ok g :: rest) hpre
    (Except.error (Fault.insufficiency EmptyStock.mk)) 0
  unfold Collector.consumeScan
  rw [h2]
  simp [Collector.scanGo]

/-- Witness for C4 at a concrete input: with sub-consumers `[A, B, C]` where
`A` fails with an insufficiency and `B` yields the good `5`, `consume` returns
`5` having invoked two sub-consumers, so `C` was never invoked. -/
theorem collector_stops_at_first_success_witness :
    Collector.consumeScan (fun i : EmptyStock => i)
      (fun d : MockDefect => d)
      ([Except.error (Fault.insufficiency EmptyStock.mk)] ++
        Except.ok 5 :: [Except.ok 9]) =
    (Except.ok 5, 2) :=
  collector_stops_at_first_success (fun i : EmptyStock => i)
    (fun d : MockDefect => d)
    [Except.error (Fault.insufficiency EmptyStock.mk)] [Except.ok 9] 5
    (by intro r hr
        simp only [List.mem_singleton] at hr
        exact ⟨EmptyStock.mk, hr⟩)

/-- C5: a sub-consumer failing with a defect stops the scan immediately after
any run of insufficiency failures: the blamed failure is still classified as a
defect (only its carrying type is widened by `fd`) and the invocation count
shows no later sub-consumer was invoked. -/
theorem collector_defect_short_circuits {G I D D2 : Type}
    (fi : I → EmptyStock) (fd : D → D2)
    (pre rest : List (Except (Fault I D) G)) (d : D)
    (hpre : ∀ r ∈ pre, ∃ i, r = Except.error (Fault.insufficiency i)) :
    Collector.consumeScan fi fd
        (pre ++ Except.error (Fault.defect d) :: rest) =
      (Except.error (Fault.defect (fd d)), pre.length + 1) := by
  obtain ⟨acc2, h2⟩ := scanGo_skips_insufficiencies fi fd pre
    (Except.error (Fault.defect d) :: rest) hpre
    (Except.error (Fault.insufficiency EmptyStock.mk)) 0
  unfold Collector.consumeScan
  rw [h2]
  simp [Collector.scanGo, Fault.blame, Fault.isDefect]

/-- Witness for C5 at a concrete input: with sub-consumers `[A, B]` where `A`
fails with a defect, `consume` returns `A`'s defect having invoked exactly one
sub-consumer, so `B` was never invoked. -/
theorem collector_defect_short_circuits_witness :
    Collector.consumeScan (fun i : EmptyStock => i)
      (fun d : MockDefect => d)
      (([] : List (Except (Fault EmptyStock MockDefect) Nat)) ++
        Except.error (Fault.defect MockDefect.mk) :: [Except.ok 9]) =
    (Except.error (Fault.defect MockDefect.mk), 1) :=
  collector_defect_short_circuits (fun i : EmptyStock => i)
    (fun d : MockDefect => d) [] [Except.ok 9] MockDefect.mk
    (by intro r hr; simp at hr)

/-- C6: when every sub-consumer fails with an insufficiency, the scan is
exhausted and `Collector::consume` returns the blamed insufficiency of the
last sub-consumer, having invoked all of them; with no sub-consumers at all it
returns the default `EmptyStock` insufficiency without invoking anything. -/
theorem collector_exhausted_returns_last_insufficiency {G I D D2 : Type}
    (fi : I → EmptyStock) (fd : D → D2)
    (pre : List (Except (Fault I D) G)) (i : I)
    (hpre : ∀ r ∈ pre, ∃ j, r = Except.error (Fault.insufficiency j)) :
    Collector.consumeScan fi fd
        (pre ++ [Except.error (Fault.insufficiency i)]) =
      (Except.error (Fault.insufficiency (fi i)), pre.length + 1) ∧
    Collector.consumeScan fi fd ([] : List (Except (Fault I D) G)) =
      (Except.error (Fault.insufficiency EmptyStock.mk), 0) := by
  constructor
  · obtain ⟨acc2, h2⟩ := scanGo_skips_insufficiencies fi fd pre
      [Except.error (Fault.insufficiency i)] hpre
      (Except.error (Fault.insufficiency EmptyStock.mk)) 0
    unfold Collector.consumeScan
    rw [h2]
    simp [Collector.scanGo, Fault.blame, Fault.isDefect]
  · rfl

/-- Witness for C6 at a concrete input: two sub-consumers that both fail with
insufficiencies leave `consume` returning the last insufficiency with both
invoked. -/
theorem collector_exhausted_returns_last_insufficiency_witness :
    Collector.consumeScan (fun i : EmptyStock => i)
      (fun d : MockDefect => d)
      (([Except.error (Fault.insufficiency EmptyStock.mk)] :
          List (Except (Fault EmptyStock MockDefect) Nat)) ++
        [Except.error (Fault.insufficiency EmptyStock.mk)]) =
    (Except.error (Fault.insufficiency EmptyStock.mk), 2) :=
  (collector_exhausted_returns_last_insufficiency (fun i : EmptyStock => i)
    (fun d : MockDefect => d)
    [Except.error (Fault.insufficiency EmptyStock.mk)] EmptyStock.mk
    (by intro r hr
        simp only [List.mem_singleton] at hr
        exact ⟨EmptyStock.mk, hr⟩)).1

end CollectorTheorems

section DistributorTheorems

/-- C7: when a good's key has no registered producer, `Distributor::produce`
fails with a recall whose fault is `Defect MissingKey` and whose contained
good is the original good, and no sub-producer is invoked (the invocation flag
is `false`). -/
theorem distributor_missing_key_returns_good {K G I D : Type}
    [DecidableEq K] (key : G → K)
    (producers :
      List (K × (G → Except (Recall I (SpecificationDefect D) G) Unit)))
    (g : G) (h : Distributor.lookup (key g) producers = none) :
    Distributor.produceTrace key producers g =
      (Except.error ⟨Fault.defect DistributionDefect.missingKey, g⟩,
        false) := by
  simp only [Distributor.produceTrace, h]

/-- Witness for C7 at a concrete input: a distributor holding only key `1`
rejects the good `0` (whose key is itself) with `MissingKey`, carrying `0`
and invoking no sub-producer. -/
theorem distributor_missing_key_returns_good_witness :
    Distributor.produceTrace (fun g : Nat => g)
      [(1, fun _ : Nat =>
        (Except.ok () :
          Except (Recall EmptyStock (SpecificationDefect MockDefect) Nat)
            Unit))]
      0 =
    (Except.error ⟨Fault.defect DistributionDefect.missingKey, 0⟩, false) :=
  distributor_missing_key_returns_good (fun g : Nat => g)
    [(1, fun _ : Nat =>
      (Except.ok () :
        Except (Recall EmptyStock (SpecificationDefect MockDefect) Nat)
          Unit))]
    0 rfl

end DistributorTheorems
